/-
Verification of the natural-language specification of the yellowbrick
visualizer subset (ClassificationReport, PosTagVisualizer and their quick
methods) against a shallow embedding of the source code.

The embedding translates the Python source of
  yellowbrick/text/postag.py
  yellowbrick/classifier/classification_report.py
into executable Lean definitions.  Dictionaries become association lists,
in-place mutation becomes explicit state passing, fallible operations
(KeyError, IndexError, raised validation errors) return `Except`, and the
numeric values flowing through the classification report are modelled as
rationals.  The external collaborators declared out of scope by the spec
(the sklearn estimator and metric functions, the matplotlib axes) are
abstracted as function parameters and as a record of what was rendered.
-/
import Mathlib

namespace Yellowbrick

/-! ## Part-of-speech tagging data (yellowbrick/text/postag.py) -/

/-- The two characters of the Penn Treebank opening-quote tag. -/
def tickTick : String := String.mk [Char.ofNat 96, Char.ofNat 96]

/-- The two characters of the Penn Treebank closing-quote tag. -/
def quoteQuote : String := String.mk [Char.ofNat 39, Char.ofNat 39]

/-- `PUNCT_TAGS` from the source. -/
def PUNCT_TAGS : List String :=
  [".", ":", ",", tickTick, quoteQuote, "(", ")", "#", "$"]

/-- `TAGSET_NAMES` from the source. -/
def TAGSET_NAMES : List (String × String) :=
  [("penn_treebank", "Penn Treebank"), ("universal", "Universal Dependencies")]

/-- `PENN_TAGS` from the source. -/
def PENN_TAGS : List String :=
  ["noun", "verb", "adjective", "adverb", "preposition", "determiner",
   "pronoun", "conjunction", "infinitive", "wh- word", "modal",
   "possessive", "existential", "punctuation", "digit", "non-English",
   "interjection", "list", "symbol", "other"]

/-- `UNIVERSAL_TAGS` from the source. -/
def UNIVERSAL_TAGS : List String :=
  ["noun", "verb", "adjective", "adverb", "adposition", "determiner",
   "pronoun", "conjunction", "infinitive", "punctuation", "number",
   "interjection", "symbol", "other"]

/-- A tag counter: Python dict from tag name to count. -/
abbrev Counter := List (String × Nat)

/-- The per-label map of counters held in `pos_tag_counts_`. -/
abbrev TagMap := List (String × Counter)

/-- A (token, tag) pair of a tagged sentence. -/
abbrev TaggedToken := String × String

/-- The corpus format: documents, each a list of sentences, each a list of
(token, tag) pairs. -/
abbrev Corpus := List (List (List TaggedToken))

/-- `np.unique`: the sorted unique values of an array. -/
def npUnique (y : List String) : List String :=
  y.dedup.insertionSort (fun a b => a ≤ b)

/-- The value actually returned by `_make_tag_map`: the dict comprehension
mapping each label to a dict of every tag of the tagset to a zero counter. -/
def makeTagMap (labels tagset : List String) : TagMap :=
  labels.map (fun label => (label, tagset.map (fun t => (t, 0))))

/-- The two shapes a `return` statement of `_make_tag_map` would produce:
the dict-of-dicts keyed by label, or the flat tag-to-zero dict. -/
inductive TagMapReturn where
  | nested (m : TagMap)
  | flat (c : Counter)
deriving DecidableEq

/-- The ordered list of `return` statements in the body of `_make_tag_map`:
first the dict comprehension over `self.labels_`, then the dead
`return dict(zip(tagset, zeros))` that follows it. -/
def makeTagMapReturns (labels tagset : List String) : List TagMapReturn :=
  [TagMapReturn.nested (makeTagMap labels tagset),
   TagMapReturn.flat (tagset.map (fun t => (t, 0)))]

/-- Executing a straight-line Python function body returns at the first
`return` statement reached; any later return statement is never executed. -/
def makeTagMapExec (labels tagset : List String) : Option TagMapReturn :=
  (makeTagMapReturns labels tagset).head?

/-- Python `or` applied to two string literals: the left operand when it is
truthy (non-empty), else the right.  The source writes the determiner
membership list as the expression list containing one element,
the string produced by this operator. -/
def pyOr (a b : String) : String := if a = "" then b else a

/-- The `jump` dict of `_handle_universal`, composed with its
`.get(tag, "other")` access: an exact-tag lookup with default. -/
def universalBucket (tag : String) : String :=
  if tag = "NOUN" then "noun"
  else if tag = "PROPN" then "noun"
  else if tag = "ADJ" then "adjective"
  else if tag = "VERB" then "verb"
  else if tag = "ADV" then "adverb"
  else if tag = "PART" then "adverb"
  else if tag = "ADP" then "adposition"
  else if tag = "PRON" then "pronoun"
  else if tag = "CCONJ" then "conjunction"
  else if tag = "PUNCT" then "punctuation"
  else if tag = "DET" then "determiner"
  else if tag = "NUM" then "number"
  else if tag = "INTJ" then "interjection"
  else if tag = "SYM" then "symbol"
  else "other"

/-- The keys of the `jump` dict of `_handle_universal`. -/
def universalJumpKeys : List String :=
  ["NOUN", "PROPN", "ADJ", "VERB", "ADV", "PART", "ADP", "PRON",
   "CCONJ", "PUNCT", "DET", "NUM", "INTJ", "SYM"]

deriving instance DecidableEq for Except

/-- Python str.startswith, evaluated on the character sequence of the
strings. -/
def strStartsWith (s p : String) : Bool := p.data.isPrefixOf s.data

/-- The if/elif chain of `_handle_treebank` mapping a raw Penn Treebank tag
to the counter key it increments.  The determiner branch tests membership
in the literal list `[pyOr "DT" "PDT"]` exactly as the source writes it. -/
def treebankBucket (tag : String) : String :=
  if strStartsWith tag "N" then "noun"
  else if strStartsWith tag "J" then "adjective"
  else if strStartsWith tag "V" then "verb"
  else if strStartsWith tag "RB" || tag = "RP" then "adverb"
  else if strStartsWith tag "PR" then "pronoun"
  else if strStartsWith tag "W" then "wh- word"
  else if tag = "CC" then "conjunction"
  else if tag = "CD" then "digit"
  else if tag ∈ [pyOr "DT" "PDT"] then "determiner"
  else if tag = "EX" then "existential"
  else if tag = "FW" then "non-English"
  else if tag = "IN" then "preposition"
  else if tag = "POS" then "possessive"
  else if tag = "LS" then "list"
  else if tag = "MD" then "modal"
  else if tag ∈ PUNCT_TAGS then "punctuation"
  else if tag = "TO" then "infinitive"
  else if tag = "UH" then "interjection"
  else if tag = "SYM" then "symbol"
  else "other"

/-- Python `counter[k] += 1`: KeyError when the key is absent, otherwise the
counter with the value at `k` incremented. -/
def incrCounter (c : Counter) (k : String) : Except String Counter :=
  if (c.lookup k).isSome then
    Except.ok (c.map (fun p => if p.1 = k then (p.1, p.2 + 1) else p))
  else Except.error "KeyError: tag"

/-- Writing the mutated counter back at its label (the Python counter is a
reference aliased into the dict; mutation updates the dict entry). -/
def setLabelCounter (m : TagMap) (label : String) (c : Counter) : TagMap :=
  m.map (fun p => if p.1 = label then (p.1, c) else p)

/-- The counter-selection step shared by both handlers:
`self.pos_tag_counts_[y[idx]]` when stacking (IndexError when `idx` is out of
range of `y`), else `self.pos_tag_counts_['documents']`. -/
def lookupLabel (stack : Bool) (y : List String) (idx : Nat) : Except String String :=
  if stack then
    match y[idx]? with
    | some l => Except.ok l
    | none => Except.error "IndexError: y"
  else Except.ok "documents"

/-- One iteration of the token loop of `_handle_universal`: skip `SPACE`
tags, select the counter for the document's group, increment the bucket of
the tag. -/
def universalStep (stack : Bool) (y : List String) (m : TagMap) (idx : Nat)
    (tok : TaggedToken) : Except String TagMap :=
  if tok.2 = "SPACE" then Except.ok m
  else
    match lookupLabel stack y idx with
    | Except.error e => Except.error e
    | Except.ok label =>
      match m.lookup label with
      | some counter =>
        match incrCounter counter (universalBucket tok.2) with
        | Except.error e => Except.error e
        | Except.ok counter => Except.ok (setLabelCounter m label counter)
      | none => Except.error "KeyError: label"

/-- One iteration of the token loop of `_handle_treebank`: select the counter
for the document's group, increment the bucket selected by the if/elif
chain. -/
def treebankStep (stack : Bool) (y : List String) (m : TagMap) (idx : Nat)
    (tok : TaggedToken) : Except String TagMap :=
  match lookupLabel stack y idx with
  | Except.error e => Except.error e
  | Except.ok label =>
    match m.lookup label with
    | some counter =>
      match incrCounter counter (treebankBucket tok.2) with
      | Except.error e => Except.error e
      | Except.ok counter => Except.ok (setLabelCounter m label counter)
    | none => Except.error "KeyError: label"

/-- The three-level `for idx, tagged_doc in enumerate(X)` loop nest shared by
both handlers, with the per-token step passed in. -/
def handleDocs (step : TagMap → Nat → TaggedToken → Except String TagMap)
    (m : TagMap) (X : Corpus) : Except String TagMap :=
  X.enum.foldlM
    (fun m p =>
      p.2.foldlM (fun m sent => sent.foldlM (fun m tok => step m p.1 tok) m) m)
    m

/-- `_handle_universal`. -/
def handleUniversal (stack : Bool) (y : List String) (m : TagMap) (X : Corpus) :
    Except String TagMap :=
  handleDocs (fun m idx tok => universalStep stack y m idx tok) m X

/-- `_handle_treebank`. -/
def handleTreebank (stack : Bool) (y : List String) (m : TagMap) (X : Corpus) :
    Except String TagMap :=
  handleDocs (fun m idx tok => treebankStep stack y m idx tok) m X

/-- One bar chart rendered onto the axes: the tick labels and, per label
group, the row of counts handed to the bar renderer (the non-stacking branch
renders row zero of this matrix; the stacking branch renders all rows). -/
structure BarPlot where
  ticks : List String
  counts : List (List Nat)
deriving DecidableEq

/-- The mutable state of a `PosTagVisualizer`.  `pos_tags` models the
`self._pos_tags` attribute; `ax` models the matplotlib axes as the sequence
of bar charts drawn onto it. -/
structure PosTagVisualizer where
  tagset : String
  frequency : Bool
  stack : Bool
  labels_ : List String
  pos_tag_counts_ : TagMap
  pos_tags : List String
  ax : List BarPlot
deriving DecidableEq

/-- `PosTagVisualizer.__init__`: validates the tagset against
`TAGSET_NAMES` before storing the configuration. -/
def posTagInit (tagset : String) (frequency stack : Bool) :
    Except String PosTagVisualizer :=
  match (TAGSET_NAMES.lookup tagset).isSome with
  | false => Except.error "invalid tagset"
  | true =>
    Except.ok
      { tagset := tagset, frequency := frequency, stack := stack,
        labels_ := [], pos_tag_counts_ := [], pos_tags := [], ax := [] }

/-- `np.sum(pos_tag_counts, axis=0)`: the element-wise sum of the rows of a
rectangular matrix. -/
def colSumsOf : List (List Nat) → List Nat
  | [] => []
  | [r] => r
  | r :: rs => r.zipWith (· + ·) (colSumsOf rs)

/-- `np.argsort`: indices that put the array into ascending order. -/
def argsort (l : List Nat) : List Nat :=
  (List.range l.length).insertionSort (fun i j => l.getD i 0 ≤ l.getD j 0)

/-- The nested list `[list(i.values()) for i in self.pos_tag_counts_.values()]`
built at the top of `draw`. -/
def vizCountRows (v : PosTagVisualizer) : List (List Nat) :=
  v.pos_tag_counts_.map (fun p => p.2.map Prod.snd)

/-- The reordering `(pos_tag_sum).argsort()[::-1]` computed by `draw` when
frequency mode is on. -/
def vizFreqIdx (v : PosTagVisualizer) : List Nat :=
  (argsort (colSumsOf (vizCountRows v))).reverse

/-- `PosTagVisualizer.draw`: in frequency mode permutes `self._pos_tags` and
the columns of the count matrix by the descending-total index order, then
renders the bar chart onto the axes and returns it. -/
def PosTagVisualizer.draw (v : PosTagVisualizer) : PosTagVisualizer × BarPlot :=
  let counts := vizCountRows v
  let (tags, counts) :=
    if v.frequency then
      let idx := vizFreqIdx v
      (idx.map (fun i => v.pos_tags.getD i ""),
       counts.map (fun r => idx.map (fun i => r.getD i 0)))
    else (v.pos_tags, counts)
  let plot : BarPlot := { ticks := tags, counts := counts }
  ({ v with pos_tags := tags, ax := v.ax ++ [plot] }, plot)

/-- `PosTagVisualizer.fit`: resolves the group labels (requiring `y` when
stacking), re-initializes `pos_tag_counts_` to the zero tag map for the
configured tagset, accumulates the corpus counts through the matching
handler, draws, and returns the instance. -/
def PosTagVisualizer.fit (v : PosTagVisualizer) (X : Corpus)
    (y : Option (List String)) : Except String PosTagVisualizer :=
  match (if v.stack then
           match y with
           | none => Except.error "Specify y for stack=True"
           | some ys => Except.ok (npUnique ys)
         else Except.ok ["documents"] : Except String (List String)) with
  | Except.error e => Except.error e
  | Except.ok labels =>
    if v.tagset = "penn_treebank" then
      match handleTreebank v.stack (y.getD []) (makeTagMap labels PENN_TAGS) X with
      | Except.error e => Except.error e
      | Except.ok m =>
        Except.ok
          ({ v with
             labels_ := labels, pos_tag_counts_ := m,
             pos_tags := PENN_TAGS }.draw).1
    else if v.tagset = "universal" then
      match handleUniversal v.stack (y.getD []) (makeTagMap labels UNIVERSAL_TAGS) X with
      | Except.error e => Except.error e
      | Except.ok m =>
        Except.ok
          ({ v with
             labels_ := labels, pos_tag_counts_ := m,
             pos_tags := UNIVERSAL_TAGS }.draw).1
    else
      Except.ok ({ v with labels_ := labels }.draw).1

/-- The `postag` quick method: instantiate the visualizer, fit it (which
draws), and return the axes object on the visualizer. -/
def postag (X : Corpus) (y : Option (List String)) (tagset : String)
    (frequency stack : Bool) : Except String (List BarPlot) :=
  match posTagInit tagset frequency stack with
  | Except.error e => Except.error e
  | Except.ok visualizer =>
    match visualizer.fit X y with
    | Except.error e => Except.error e
    | Except.ok visualizer => Except.ok visualizer.ax

/-! ## Classification report (yellowbrick/classifier/classification_report.py) -/

/-- The feature matrix handed to the estimator, with entries as rationals. -/
abbrev Mat := List (List ℚ)

/-- The values the Python `support` argument ranges over in the validation
set: `None`, a bool, or a string. -/
inductive PyVal where
  | none
  | bool (b : Bool)
  | str (s : String)
deriving DecidableEq

/-- Python truthiness for the `support` argument: `None` and `False` are
falsy, a string is truthy when non-empty. -/
def truthy : PyVal → Bool
  | PyVal.none => false
  | PyVal.bool b => b
  | PyVal.str s => s != ""

/-- The validation set of the constructor:
`support not in (None, True, False, percent, count)` raises. -/
def validSupportVals : List PyVal :=
  [PyVal.none, PyVal.bool true, PyVal.bool false,
   PyVal.str "percent", PyVal.str "count"]

/-- `SCORES_KEYS` from the source. -/
def SCORES_KEYS : List String := ["precision", "recall", "f1", "support"]

/-- The externally-owned sklearn estimator, abstracted to the contract the
spec names: predict, score, and discoverable classes. -/
structure Estimator where
  predict : Mat → List String
  score : Mat → List String → ℚ
  classes_ : List String

/-- The result quadruple of sklearn's `precision_recall_fscore_support`
applied to `(y_true, y_pred)`: per-class precision, recall, F1 and the raw
per-class support counts. -/
structure PRFSResult where
  precision : List ℚ
  recall_ : List ℚ
  f1 : List ℚ
  support : List ℚ

/-- The external metric function itself, abstracted as a parameter: it is an
out-of-scope collaborator of this repository. -/
abbrev PRFS := List String → List String → PRFSResult

/-- The state of a `ClassificationReport`.  `displayed_scores` models
`self._displayed_scores`; `drawCalls` records invocations of `draw` (the
rendering itself is the external plotting collaborator). -/
structure ClassificationReport where
  estimator : Estimator
  classes : Option (List String)
  support : PyVal
  displayed_scores : List String
  classes_ : List String
  support_score_ : List ℚ
  scores_ : List (String × List (String × ℚ))
  score_ : ℚ
  drawCalls : Nat

/-- `ClassificationReport.__init__`: builds `_displayed_scores` from
`SCORES_KEYS`, raises when `support` is outside the validation set, and
removes the support column when `support` is falsy.  The constructor never
touches the estimator, so the error precedes any fitting. -/
def classificationReportInit (model : Estimator) (classes : Option (List String))
    (support : PyVal) : Except String ClassificationReport :=
  if support ∈ validSupportVals then
    Except.ok
      { estimator := model, classes := classes, support := support,
        displayed_scores :=
          if truthy support then SCORES_KEYS else SCORES_KEYS.erase "support",
        classes_ := [], support_score_ := [], scores_ := [], score_ := 0,
        drawCalls := 0 }
  else Except.error "invalid argument for support"

/-- `ClassificationReport.draw`: renders the score grid onto the matplotlib
axes, an external plotting operation; the embedding records the
invocation. -/
def ClassificationReport.draw (v : ClassificationReport) : ClassificationReport :=
  { v with drawCalls := v.drawCalls + 1 }

/-- Modelled from the spec: the `ScoreVisualizer.fit` base behavior lives in
code of this repository that is not under src/ (`yellowbrick/base.py` and
`yellowbrick/classifier/base.py`).  Per the spec it decides whether to
re-fit the wrapped estimator, resolves the class-label list from, in
priority order, the explicit constructor argument, the unique values of
`y`, or the estimator's own discovered classes, and returns the instance
itself. -/
def ClassificationReport.fit (v : ClassificationReport) (_X : Mat)
    (y : List String) : ClassificationReport :=
  match v.classes with
  | some cs => { v with classes_ := cs }
  | none =>
    if y.isEmpty then { v with classes_ := v.estimator.classes_ }
    else { v with classes_ := npUnique y }

/-- `ClassificationReport.score`: predicts (modelled from the spec: the
`ClassificationScoreVisualizer.predict` wrapper, not under src/, delegates
to the wrapped estimator), computes per-class metrics through the external
`precision_recall_fscore_support`, stores the raw support counts in
`support_score_`, normalizes the support column by its total, zips the
metric names with the per-class dictionaries into `scores_`, pops the
support entry when the option is falsy, draws, and returns the estimator's
own accuracy score. -/
def ClassificationReport.score (v : ClassificationReport) (prfs : PRFS)
    (X : Mat) (y : List String) : ℚ × ClassificationReport :=
  let y_pred := v.estimator.predict X
  let res := prfs y y_pred
  let support_raw := res.support
  let supNorm := support_raw.map (fun s => s / support_raw.sum)
  let mapped := [res.precision, res.recall_, res.f1, supNorm].map
    (fun s => v.classes_.zip s)
  let scores0 := SCORES_KEYS.zip mapped
  let scores1 :=
    if truthy v.support then scores0
    else scores0.filter (fun kv => kv.1 ≠ "support")
  let v1 := { v with support_score_ := support_raw, scores_ := scores1 }
  let v2 := v1.draw
  let s := v2.estimator.score X y
  (s, { v2 with score_ := s })

/-- The `classification_report` quick method: instantiate the visualizer,
split the data into train and test portions through the external
`train_test_split` (abstracted as a parameter), fit on the training split,
score on the test split, and return the visualizer itself. -/
def classification_report (model : Estimator) (X : Mat) (y : List String)
    (split : Mat → List String → (Mat × List String) × (Mat × List String))
    (prfs : PRFS) (classes : Option (List String)) (support : PyVal) :
    Except String ClassificationReport :=
  match classificationReportInit model classes support with
  | Except.error e => Except.error e
  | Except.ok visualizer =>
    let tt := split X y
    let visualizer := visualizer.fit tt.1.1 tt.1.2
    let sv := visualizer.score prfs tt.2.1 tt.2.2
    Except.ok sv.2

/-! ## Helper lemmas -/

theorem lookup_map_pair {β : Type} (f : String → β) (xs : List String) (k : String)
    (hk : k ∈ xs) : (xs.map (fun t => (t, f t))).lookup k = some (f k) := by
  induction xs with
  | nil => cases hk
  | cons a as ih =>
    by_cases hka : k = a
    · subst hka
      simp [List.lookup]
    · rcases List.mem_cons.mp hk with h | h
      · exact absurd h hka
      · have hb : (k == a) = false := beq_eq_false_iff_ne.mpr hka
        simpa [List.lookup, hb] using ih h

theorem mem_npUnique (a : String) (ys : List String) (h : a ∈ ys) :
    a ∈ npUnique ys := by
  unfold npUnique
  exact (List.perm_insertionSort _ ys.dedup).mem_iff.mpr (List.mem_dedup.mpr h)

theorem pyOr_DT : pyOr "DT" "PDT" = "DT" := rfl

theorem ite_mem {c : Prop} [Decidable c] {a b : String} {S : List String}
    (ha : a ∈ S) (hb : b ∈ S) : (if c then a else b) ∈ S := by
  by_cases h : c
  · simpa [h] using ha
  · simpa [h] using hb

theorem ite_ne {c : Prop} [Decidable c] {a b x : String}
    (ha : a ≠ x) (hb : b ≠ x) : (if c then a else b) ≠ x := by
  by_cases h : c
  · simpa [h] using ha
  · simpa [h] using hb

theorem universalBucket_mem (tag : String) : universalBucket tag ∈ UNIVERSAL_TAGS := by
  unfold universalBucket
  repeat' apply ite_mem
  all_goals decide

theorem treebankBucket_mem (tag : String) : treebankBucket tag ∈ PENN_TAGS := by
  unfold treebankBucket
  repeat' apply ite_mem
  all_goals decide

theorem universalBucket_of_not_mem (tag : String) (h : tag ∉ universalJumpKeys) :
    universalBucket tag = "other" := by
  simp only [universalJumpKeys, List.mem_cons, List.mem_singleton, not_or] at h
  obtain ⟨h1, h2, h3, h4, h5, h6, h7, h8, h9, h10, h11, h12, h13, h14⟩ := h
  simp [universalBucket, h1, h2, h3, h4, h5, h6, h7, h8, h9, h10, h11, h12, h13, h14]

theorem draw_labels (v : PosTagVisualizer) : (v.draw).1.labels_ = v.labels_ := by
  cases hf : v.frequency <;> simp [PosTagVisualizer.draw, hf]

theorem draw_counts (v : PosTagVisualizer) :
    (v.draw).1.pos_tag_counts_ = v.pos_tag_counts_ := by
  cases hf : v.frequency <;> simp [PosTagVisualizer.draw, hf]

theorem draw_stack (v : PosTagVisualizer) : (v.draw).1.stack = v.stack := by
  cases hf : v.frequency <;> simp [PosTagVisualizer.draw, hf]

theorem draw_tagset (v : PosTagVisualizer) : (v.draw).1.tagset = v.tagset := by
  cases hf : v.frequency <;> simp [PosTagVisualizer.draw, hf]

theorem draw_frequency (v : PosTagVisualizer) : (v.draw).1.frequency = v.frequency := by
  cases hf : v.frequency <;> simp [PosTagVisualizer.draw, hf]

theorem draw_ax (v : PosTagVisualizer) : (v.draw).1.ax = v.ax ++ [(v.draw).2] := by
  cases hf : v.frequency <;> simp [PosTagVisualizer.draw, hf]

/-! ## Claim theorems -/

/-- C2: for every label list and tagset, `_make_tag_map` returns the
dict-of-dicts mapping each label in `labels_` to a dict mapping every tag of
the tagset to the count zero, in stacking and non-stacking mode alike; the
execution of the body stops at the first return statement, so the second
(flat) return is never executed. -/
theorem make_tag_map_nested_only (labels tagset : List String) :
    makeTagMapExec labels tagset
      = some (TagMapReturn.nested (makeTagMap labels tagset))
    ∧ (∀ l ∈ labels, ∃ c : Counter,
        (makeTagMap labels tagset).lookup l = some c
        ∧ ∀ t ∈ tagset, c.lookup t = some 0)
    ∧ ∀ c : Counter,
        makeTagMapExec labels tagset ≠ some (TagMapReturn.flat c) := by
  refine ⟨rfl, ?_, ?_⟩
  · intro l hl
    refine ⟨tagset.map (fun t => (t, 0)), ?_, ?_⟩
    · exact lookup_map_pair (fun _ => tagset.map (fun t => (t, 0))) labels l hl
    · intro t ht
      exact lookup_map_pair (fun _ => 0) tagset t ht
  · intro c hc
    simp [makeTagMapExec, makeTagMapReturns] at hc

/-- C3: the determiner branch of `_handle_treebank` tests membership in the
single-element list that the expression with Python `or` produces, so the
bucket is "determiner" exactly for the tag "DT"; "PDT" falls through to the
"other" bucket, and on a corpus containing one PDT-tagged token the handler
increments the "other" counter and leaves "determiner" at zero. -/
theorem treebank_pdt_falls_to_other :
    (∀ tag : String, treebankBucket tag = "determiner" ↔ tag = "DT")
    ∧ treebankBucket "PDT" = "other"
    ∧ handleTreebank false [] (makeTagMap ["documents"] PENN_TAGS)
        [[[("pre", "PDT")]]]
      = Except.ok [("documents",
          PENN_TAGS.map (fun t => (t, if t = "other" then 1 else 0)))] := by
  refine ⟨?_, by decide, by decide⟩
  intro tag
  by_cases hDT : tag = "DT"
  · subst hDT
    exact iff_of_true (by decide) rfl
  · refine iff_of_false ?_ hDT
    have hmem : tag ∉ [pyOr "DT" "PDT"] := by
      rw [pyOr_DT]
      simpa using hDT
    unfold treebankBucket
    rw [if_neg hmem]
    repeat' apply ite_ne
    all_goals decide

/-- C4, counterexample: in `_handle_universal` a token tagged SPACE is
skipped by the `continue` before any counter is selected: SPACE is not a key
of the exact-tag jump table, yet a corpus holding one SPACE-tagged pair
leaves the tag map untouched, so that pair never increments the "other"
bucket — the tag is silently dropped. -/
theorem universal_space_dropped :
    "SPACE" ∉ universalJumpKeys
    ∧ handleUniversal false [] (makeTagMap ["documents"] UNIVERSAL_TAGS)
        [[[("tok", "SPACE")]]]
      = Except.ok (makeTagMap ["documents"] UNIVERSAL_TAGS) :=
  ⟨by decide, by decide⟩

/-- C4, amended: every (token, tag) pair whose tag is not in the exact-tag
lookup table and is not the literal "SPACE" increments the "other" bucket of
the appropriate group counter; pairs tagged "SPACE" are skipped without
counting. -/
theorem universal_other_bucket (m : TagMap) (counter : Counter) (stack : Bool)
    (y : List String) (idx : Nat) (label tok tag : String)
    (htag : tag ∉ universalJumpKeys) (hspace : tag ≠ "SPACE")
    (hlabel : lookupLabel stack y idx = Except.ok label)
    (hc : m.lookup label = some counter)
    (hother : (counter.lookup "other").isSome = true) :
    universalStep stack y m idx (tok, tag)
      = Except.ok (setLabelCounter m label
          (counter.map (fun p => if p.1 = "other" then (p.1, p.2 + 1) else p)))
    ∧ (∀ tok2 : String,
        universalStep stack y m idx (tok2, "SPACE") = Except.ok m) := by
  constructor
  · unfold universalStep
    rw [if_neg hspace, hlabel]
    dsimp only
    rw [hc]
    dsimp only
    rw [universalBucket_of_not_mem tag htag]
    unfold incrCounter
    rw [if_pos hother]
  · intro tok2
    simp [universalStep]

theorem universal_other_bucket_witness :
    universalStep false [] (makeTagMap ["documents"] UNIVERSAL_TAGS) 0
        ("tok", "XX")
      = Except.ok (setLabelCounter (makeTagMap ["documents"] UNIVERSAL_TAGS)
          "documents"
          ((UNIVERSAL_TAGS.map (fun t => (t, 0))).map
            (fun p => if p.1 = "other" then (p.1, p.2 + 1) else p)))
    ∧ universalStep false [] (makeTagMap ["documents"] UNIVERSAL_TAGS) 0
        ("tok", "SPACE")
      = Except.ok (makeTagMap ["documents"] UNIVERSAL_TAGS) :=
  ⟨(universal_other_bucket (makeTagMap ["documents"] UNIVERSAL_TAGS)
      (UNIVERSAL_TAGS.map (fun t => (t, 0))) false [] 0 "documents" "tok" "XX"
      (by decide) (by decide) (by decide) (by decide) (by decide)).1,
   (universal_other_bucket (makeTagMap ["documents"] UNIVERSAL_TAGS)
      (UNIVERSAL_TAGS.map (fun t => (t, 0))) false [] 0 "documents" "tok" "XX"
      (by decide) (by decide) (by decide) (by decide) (by decide)).2 "tok"⟩

theorem fit_preserves_config (v : PosTagVisualizer) (X : Corpus)
    (y : Option (List String)) (w : PosTagVisualizer)
    (hw : v.fit X y = Except.ok w) :
    w.stack = v.stack ∧ w.tagset = v.tagset ∧ w.frequency = v.frequency := by
  unfold PosTagVisualizer.fit at hw
  split at hw
  · simp at hw
  · split at hw
    · split at hw
      · simp at hw
      · injection hw with hw
        subst hw
        exact ⟨draw_stack _, draw_tagset _, draw_frequency _⟩
    · split at hw
      · split at hw
        · simp at hw
        · injection hw with hw
          subst hw
          exact ⟨draw_stack _, draw_tagset _, draw_frequency _⟩
      · injection hw with hw
        subst hw
        exact ⟨draw_stack _, draw_tagset _, draw_frequency _⟩

/-- C6: with stacking on, fit without `y` raises the validation error before
any counts are accumulated; with `y` provided, a successful fit takes the
group labels from the unique values of `y`. -/
theorem fit_stack_requires_y (v : PosTagVisualizer) (X : Corpus)
    (ys : List String) (hstack : v.stack = true) :
    v.fit X none = Except.error "Specify y for stack=True"
    ∧ (∀ w, v.fit X (some ys) = Except.ok w → w.labels_ = npUnique ys) := by
  constructor
  · unfold PosTagVisualizer.fit
    rw [if_pos hstack]
  · intro w hw
    unfold PosTagVisualizer.fit at hw
    rw [if_pos hstack] at hw
    dsimp only [Option.getD] at hw
    split at hw
    · split at hw
      · simp at hw
      · injection hw with hw
        subst hw
        rw [draw_labels]
    · split at hw
      · split at hw
        · simp at hw
        · injection hw with hw
          subst hw
          rw [draw_labels]
      · injection hw with hw
        subst hw
        rw [draw_labels]

def stackViz : PosTagVisualizer :=
  { tagset := "universal", frequency := false, stack := true,
    labels_ := [], pos_tag_counts_ := [], pos_tags := [], ax := [] }

def tinyCorpus : Corpus := [[[("aword", "NOUN"), ("bword", "XYZ")]]]

def stackVizFit : PosTagVisualizer :=
  (stackViz.fit tinyCorpus (some ["g"])).toOption.getD stackViz

theorem fit_stack_requires_y_witness :
    stackViz.fit tinyCorpus none = Except.error "Specify y for stack=True"
    ∧ stackVizFit.labels_ = npUnique ["g"] :=
  ⟨(fit_stack_requires_y stackViz tinyCorpus ["g"] rfl).1,
   (fit_stack_requires_y stackViz tinyCorpus ["g"] rfl).2 stackVizFit (by decide)⟩

/-- C9: `fit` re-initializes `pos_tag_counts_` from a fresh zero tag map on
every call, so fitting the same corpus twice in a row leaves the counts (and
group labels) exactly as a single fit produces, and the returned instance
carries the same configuration. -/
theorem fit_reinitializes (v : PosTagVisualizer) (X : Corpus)
    (y : Option (List String)) (v₁ v₂ : PosTagVisualizer)
    (h1 : v.fit X y = Except.ok v₁) (h2 : v₁.fit X y = Except.ok v₂) :
    v₂.pos_tag_counts_ = v₁.pos_tag_counts_ ∧ v₂.labels_ = v₁.labels_
    ∧ v₂.stack = v.stack ∧ v₂.tagset = v.tagset := by
  obtain ⟨hs, ht, -⟩ := fit_preserves_config v X y v₁ h1
  obtain ⟨hs2, ht2, -⟩ := fit_preserves_config v₁ X y v₂ h2
  refine ⟨?_, ?_, hs2.trans hs, ht2.trans ht⟩ <;>
  · unfold PosTagVisualizer.fit at h1 h2
    rw [hs, ht] at h2
    split at h1
    · simp at h1
    · rename_i labels heqa
      rw [heqa] at h2
      dsimp only at h2
      split at h1
      · rename_i ht1
        rw [if_pos ht1] at h2
        split at h1
        · simp at h1
        · rename_i m hm
          rw [hm] at h2
          injection h1 with h1
          injection h2 with h2
          subst h1
          subst h2
          simp [draw_counts, draw_labels]
      · rename_i ht1
        rw [if_neg ht1] at h2
        split at h1
        · rename_i ht2a
          rw [if_pos ht2a] at h2
          split at h1
          · simp at h1
          · rename_i m hm
            rw [hm] at h2
            injection h1 with h1
            injection h2 with h2
            subst h1
            subst h2
            simp [draw_counts, draw_labels]
        · rename_i ht2a
          rw [if_neg ht2a] at h2
          injection h1 with h1
          injection h2 with h2
          subst h1
          subst h2
          simp [draw_counts, draw_labels]

def plainViz : PosTagVisualizer :=
  { tagset := "penn_treebank", frequency := false, stack := false,
    labels_ := [], pos_tag_counts_ := [], pos_tags := [], ax := [] }

def plainVizOnce : PosTagVisualizer :=
  (plainViz.fit tinyCorpus none).toOption.getD plainViz

def plainVizTwice : PosTagVisualizer :=
  (plainVizOnce.fit tinyCorpus none).toOption.getD plainViz

theorem fit_reinitializes_witness :
    plainVizTwice.pos_tag_counts_ = plainVizOnce.pos_tag_counts_
    ∧ plainVizTwice.labels_ = plainVizOnce.labels_
    ∧ plainVizTwice.stack = plainViz.stack
    ∧ plainVizTwice.tagset = plainViz.tagset :=
  fit_reinitializes plainViz tinyCorpus none plainVizOnce plainVizTwice
    (by decide) (by decide)

/-- C10: with stacking on, the group labels are the unique values of `y`,
so for every document index inside `y` the per-document counter lookup
`pos_tag_counts_[y[idx]]` succeeds — `y[idx]` is always a key of the freshly
built tag map — and the per-token step of both the universal and the
treebank handler runs without error. -/
theorem stack_lookup_safe (ys tagset : List String) (idx : Nat)
    (tok tag : String) (h : idx < ys.length) :
    ((makeTagMap (npUnique ys) tagset).lookup (ys.getD idx "")).isSome = true
    ∧ (universalStep true ys (makeTagMap (npUnique ys) UNIVERSAL_TAGS) idx
        (tok, tag)).isOk = true
    ∧ (treebankStep true ys (makeTagMap (npUnique ys) PENN_TAGS) idx
        (tok, tag)).isOk = true := by
  have hgd : ys.getD idx "" = ys[idx] := by
    rw [List.getD_eq_getElem?_getD, List.getElem?_eq_getElem h]
    rfl
  have hmem : ys.getD idx "" ∈ ys := by
    rw [hgd]
    exact List.getElem_mem h
  have hkey : ys.getD idx "" ∈ npUnique ys := mem_npUnique _ _ hmem
  have hget : ys[idx]? = some (ys.getD idx "") := by
    rw [List.getElem?_eq_getElem h, hgd]
  have hlabel : lookupLabel true ys idx = Except.ok (ys.getD idx "") := by
    unfold lookupLabel
    rw [if_pos rfl, hget]
  have hlookU : (makeTagMap (npUnique ys) UNIVERSAL_TAGS).lookup (ys.getD idx "")
      = some (UNIVERSAL_TAGS.map (fun t => (t, 0))) :=
    lookup_map_pair (fun _ => UNIVERSAL_TAGS.map (fun t => (t, 0))) (npUnique ys) _ hkey
  have hlookP : (makeTagMap (npUnique ys) PENN_TAGS).lookup (ys.getD idx "")
      = some (PENN_TAGS.map (fun t => (t, 0))) :=
    lookup_map_pair (fun _ => PENN_TAGS.map (fun t => (t, 0))) (npUnique ys) _ hkey
  have hincrU : (((UNIVERSAL_TAGS.map (fun t => (t, 0))) : Counter).lookup
      (universalBucket tag)).isSome = true := by
    rw [lookup_map_pair (fun _ => (0 : Nat)) UNIVERSAL_TAGS _ (universalBucket_mem tag)]
    rfl
  have hincrP : (((PENN_TAGS.map (fun t => (t, 0))) : Counter).lookup
      (treebankBucket tag)).isSome = true := by
    rw [lookup_map_pair (fun _ => (0 : Nat)) PENN_TAGS _ (treebankBucket_mem tag)]
    rfl
  refine ⟨?_, ?_, ?_⟩
  · have hlook : (makeTagMap (npUnique ys) tagset).lookup (ys.getD idx "")
        = some (tagset.map (fun t => (t, 0))) :=
      lookup_map_pair (fun _ => tagset.map (fun t => (t, 0))) (npUnique ys) _ hkey
    rw [hlook]
    rfl
  · by_cases hsp : tag = "SPACE"
    · simp [universalStep, hsp, Except.isOk]
      rfl
    · unfold universalStep
      rw [if_neg hsp, hlabel]
      dsimp only
      rw [hlookU]
      dsimp only
      unfold incrCounter
      rw [if_pos hincrU]
      rfl
  · unfold treebankStep
    rw [hlabel]
    dsimp only
    rw [hlookP]
    dsimp only
    unfold incrCounter
    rw [if_pos hincrP]
    rfl

theorem stack_lookup_safe_witness :
    ((makeTagMap (npUnique ["b", "a"]) ["x"]).lookup
        (["b", "a"].getD 1 "")).isSome = true
    ∧ (universalStep true ["b", "a"] (makeTagMap (npUnique ["b", "a"])
        UNIVERSAL_TAGS) 1 ("tok", "NN")).isOk = true
    ∧ (treebankStep true ["b", "a"] (makeTagMap (npUnique ["b", "a"])
        PENN_TAGS) 1 ("tok", "NN")).isOk = true :=
  stack_lookup_safe ["b", "a"] ["x"] 1 "tok" "NN" (by decide)

theorem zipWith_map_same {α β γ δ : Type} (f : β → γ → δ) (g : α → β)
    (h : α → γ) (l : List α) :
    List.zipWith f (l.map g) (l.map h) = l.map (fun x => f (g x) (h x)) := by
  induction l with
  | nil => rfl
  | cons a as ih => simp [ih]

theorem getD_zipWith_add (a b : List Nat) (hlen : a.length = b.length) (i : Nat) :
    (a.zipWith (· + ·) b).getD i 0 = a.getD i 0 + b.getD i 0 := by
  induction a generalizing b i with
  | nil =>
    cases b with
    | nil => simp
    | cons y ys => simp at hlen
  | cons x xs ih =>
    cases b with
    | nil => simp at hlen
    | cons y ys =>
      cases i with
      | zero => simp
      | succ n =>
        simpa using ih ys (by simpa using hlen) n

theorem length_colSumsOf (rows : List (List Nat)) (n : Nat) (hne : rows ≠ [])
    (hrect : ∀ r ∈ rows, r.length = n) : (colSumsOf rows).length = n := by
  induction rows with
  | nil => cases hne rfl
  | cons r rs ih =>
    cases rs with
    | nil => simpa [colSumsOf] using hrect r (by simp)
    | cons s ss =>
      have hr : r.length = n := hrect r (by simp)
      have hrest : (colSumsOf (s :: ss)).length = n :=
        ih (by simp) (fun q hq => hrect q (by simp [hq]))
      simp [colSumsOf, List.length_zipWith, hr, hrest]

theorem colSumsOf_permuted (rows : List (List Nat)) (idxl : List Nat) (n : Nat)
    (hne : rows ≠ []) (hrect : ∀ r ∈ rows, r.length = n) :
    colSumsOf (rows.map (fun r => idxl.map (fun i => r.getD i 0)))
      = idxl.map (fun i => (colSumsOf rows).getD i 0) := by
  induction rows with
  | nil => cases hne rfl
  | cons r rs ih =>
    cases rs with
    | nil => simp [colSumsOf]
    | cons s ss =>
      have hr : r.length = n := hrect r (by simp)
      have hrest : (colSumsOf (s :: ss)).length = n :=
        length_colSumsOf (s :: ss) n (by simp)
          (fun q hq => hrect q (by simp [hq]))
      have ih' := ih (by simp) (fun q hq => hrect q (by simp [hq]))
      simp only [List.map_cons, colSumsOf] at ih' ⊢
      rw [ih', zipWith_map_same]
      refine List.map_congr_left (fun i _ => ?_)
      exact (getD_zipWith_add r (colSumsOf (s :: ss)) (hr.trans hrest.symm) i).symm

theorem argsort_sorted (l : List Nat) :
    List.Pairwise (fun i j => l.getD i 0 ≤ l.getD j 0) (argsort l) := by
  unfold argsort
  haveI : IsTotal Nat (fun i j => l.getD i 0 ≤ l.getD j 0) :=
    ⟨fun a b => le_total _ _⟩
  haveI : IsTrans Nat (fun i j => l.getD i 0 ≤ l.getD j 0) :=
    ⟨fun a b c hab hbc => le_trans hab hbc⟩
  exact List.sorted_insertionSort _ _

theorem argsort_perm (l : List Nat) : (argsort l).Perm (List.range l.length) :=
  List.perm_insertionSort _ _

theorem vizFreqIdx_perm (v : PosTagVisualizer) :
    (vizFreqIdx v).Perm
      (List.range (colSumsOf (vizCountRows v)).length) := by
  unfold vizFreqIdx
  exact (List.reverse_perm _).trans (argsort_perm _)

theorem vizFreqIdx_sorted (v : PosTagVisualizer) :
    List.Pairwise (fun a b => b ≤ a)
      ((vizFreqIdx v).map
        (fun i => (colSumsOf (vizCountRows v)).getD i 0)) := by
  unfold vizFreqIdx
  have h := argsort_sorted (colSumsOf (vizCountRows v))
  have h2 := List.pairwise_reverse.mpr h
  exact h2.map _ (fun a b hab => hab)

/-- C7: with frequency mode on, `draw` permutes the tag categories and the
count columns by one and the same index list: the tick labels and every
count row are reindexed by `vizFreqIdx`, that index list is a permutation of
the column positions, and the per-category totals summed across all label
groups appear in descending (non-increasing) order in the drawn chart. -/
theorem draw_frequency_sorts (v : PosTagVisualizer)
    (hf : v.frequency = true)
    (hne : v.pos_tag_counts_ ≠ [])
    (hrect : ∀ p ∈ v.pos_tag_counts_, p.2.length = v.pos_tags.length) :
    ((v.draw).2.ticks
        = (vizFreqIdx v).map (fun i => v.pos_tags.getD i ""))
    ∧ ((v.draw).2.counts
        = (vizCountRows v).map
            (fun r => (vizFreqIdx v).map (fun i => r.getD i 0)))
    ∧ ((v.draw).1.pos_tags = (v.draw).2.ticks)
    ∧ (vizFreqIdx v).Perm
        (List.range (colSumsOf (vizCountRows v)).length)
    ∧ List.Pairwise (fun a b => b ≤ a) (colSumsOf ((v.draw).2.counts)) := by
  have hticks : (v.draw).2.ticks
      = (vizFreqIdx v).map (fun i => v.pos_tags.getD i "") := by
    simp [PosTagVisualizer.draw, hf]
  have hcounts : (v.draw).2.counts
      = (vizCountRows v).map
          (fun r => (vizFreqIdx v).map (fun i => r.getD i 0)) := by
    simp [PosTagVisualizer.draw, hf]
  have hpt : (v.draw).1.pos_tags = (v.draw).2.ticks := by
    simp [PosTagVisualizer.draw, hf]
  refine ⟨hticks, hcounts, hpt, vizFreqIdx_perm v, ?_⟩
  rw [hcounts]
  have hne' : vizCountRows v ≠ [] := by
    unfold vizCountRows
    simpa using hne
  have hrect' : ∀ r ∈ vizCountRows v, r.length = v.pos_tags.length := by
    intro r hr
    unfold vizCountRows at hr
    obtain ⟨p, hp, rfl⟩ := List.mem_map.mp hr
    simpa using hrect p hp
  rw [colSumsOf_permuted (vizCountRows v) (vizFreqIdx v) v.pos_tags.length
    hne' hrect']
  exact vizFreqIdx_sorted v

def freqViz : PosTagVisualizer :=
  { tagset := "penn_treebank", frequency := true, stack := false,
    labels_ := ["documents"],
    pos_tag_counts_ :=
      [("documents", [("noun", 2), ("verb", 5), ("adjective", 1)])],
    pos_tags := ["noun", "verb", "adjective"], ax := [] }

theorem draw_frequency_sorts_witness :
    ((freqViz.draw).2.ticks
        = (vizFreqIdx freqViz).map (fun i => freqViz.pos_tags.getD i ""))
    ∧ ((freqViz.draw).2.counts
        = (vizCountRows freqViz).map
            (fun r => (vizFreqIdx freqViz).map (fun i => r.getD i 0)))
    ∧ ((freqViz.draw).1.pos_tags = (freqViz.draw).2.ticks)
    ∧ (vizFreqIdx freqViz).Perm
        (List.range (colSumsOf (vizCountRows freqViz)).length)
    ∧ List.Pairwise (fun a b => b ≤ a)
        (colSumsOf ((freqViz.draw).2.counts)) :=
  draw_frequency_sorts freqViz rfl (by decide) (by decide)

/-- C1: after `score(X, y)`, `support_score_` holds the raw per-class support
counts of the predictions versus `y`, `scores_` maps each metric name to a
per-class mapping in which the support values are the raw counts each
divided by their total (the support entry is removed when the support option
is falsy), `draw` has been invoked, and the returned value equals the
wrapped estimator's own `score(X, y)`. -/
theorem score_spec (v : ClassificationReport) (prfs : PRFS) (X : Mat)
    (y : List String) :
    ((v.score prfs X y).2.support_score_
        = (prfs y (v.estimator.predict X)).support)
    ∧ ((v.score prfs X y).2.scores_.lookup "precision"
        = some (v.classes_.zip (prfs y (v.estimator.predict X)).precision))
    ∧ ((v.score prfs X y).2.scores_.lookup "recall"
        = some (v.classes_.zip (prfs y (v.estimator.predict X)).recall_))
    ∧ ((v.score prfs X y).2.scores_.lookup "f1"
        = some (v.classes_.zip (prfs y (v.estimator.predict X)).f1))
    ∧ ((v.score prfs X y).2.scores_.lookup "support"
        = if truthy v.support then
            some (v.classes_.zip
              ((prfs y (v.estimator.predict X)).support.map
                (fun s => s / (prfs y (v.estimator.predict X)).support.sum)))
          else none)
    ∧ ((v.score prfs X y).2.drawCalls = v.drawCalls + 1)
    ∧ ((v.score prfs X y).1 = v.estimator.score X y) := by
  cases ht : truthy v.support <;>
    refine ⟨rfl, ?_, ?_, ?_, ?_, rfl, rfl⟩ <;>
    simp [ClassificationReport.score, ClassificationReport.draw, ht,
      SCORES_KEYS, List.lookup, List.filter]

/-- C5: constructing a ClassificationReport succeeds exactly when the
`support` argument lies in the validation set, and raises the validation
error for every value outside it; the constructor never touches the
estimator, so the error precedes any fitting. -/
theorem support_validated (model : Estimator) (classes : Option (List String))
    (support : PyVal) :
    (classificationReportInit model classes support).isOk = true
      ↔ support ∈ validSupportVals := by
  unfold classificationReportInit
  by_cases h : support ∈ validSupportVals
  · simp [h, Except.isOk, Except.toBool]
  · simp [h, Except.isOk, Except.toBool]

theorem fit_estimator (v : ClassificationReport) (X : Mat) (y : List String) :
    (v.fit X y).estimator = v.estimator := by
  unfold ClassificationReport.fit
  cases hc : v.classes with
  | none =>
    dsimp only
    split <;> rfl
  | some cs => rfl

theorem fit_ax_ne_nil (v : PosTagVisualizer) (X : Corpus)
    (y : Option (List String)) (w : PosTagVisualizer)
    (hw : v.fit X y = Except.ok w) : w.ax ≠ [] := by
  unfold PosTagVisualizer.fit at hw
  split at hw
  · simp at hw
  · split at hw
    · split at hw
      · simp at hw
      · injection hw with hw
        subst hw
        rw [draw_ax]
        simp
    · split at hw
      · split at hw
        · simp at hw
        · injection hw with hw
          subst hw
          rw [draw_ax]
          simp
      · injection hw with hw
        subst hw
        rw [draw_ax]
        simp

/-- C8: each quick method returns either the fitted visualizer instance or
its drawing surface: `classification_report` builds the visualizer, fits it
on the training part of the split, scores it on the test part and returns
that visualizer instance (whose stored accuracy is the wrapped estimator's
own score on the test part); `postag` builds and fits a PosTagVisualizer
(whose fit draws, so the axes hold at least one chart) and returns the axes
object on the visualizer. -/
theorem quick_methods_return (model : Estimator) (X : Mat) (y : List String)
    (split : Mat → List String → (Mat × List String) × (Mat × List String))
    (prfs : PRFS) (classes : Option (List String)) (support : PyVal)
    (Xc : Corpus) (yc : Option (List String)) (tagset : String)
    (frequency stack : Bool) (v0 : ClassificationReport)
    (hinit : classificationReportInit model classes support = Except.ok v0)
    (w0 w : PosTagVisualizer)
    (hpinit : posTagInit tagset frequency stack = Except.ok w0)
    (hfit : w0.fit Xc yc = Except.ok w) :
    classification_report model X y split prfs classes support
      = Except.ok (((v0.fit (split X y).1.1 (split X y).1.2).score prfs
          (split X y).2.1 (split X y).2.2).2)
    ∧ (((v0.fit (split X y).1.1 (split X y).1.2).score prfs
          (split X y).2.1 (split X y).2.2).2).score_
        = model.score (split X y).2.1 (split X y).2.2
    ∧ postag Xc yc tagset frequency stack = Except.ok w.ax
    ∧ w.ax ≠ [] := by
  have hest : v0.estimator = model := by
    unfold classificationReportInit at hinit
    split at hinit
    · injection hinit with hinit
      subst hinit
      rfl
    · simp at hinit
  refine ⟨?_, ?_, ?_, fit_ax_ne_nil w0 Xc yc w hfit⟩
  · unfold classification_report
    rw [hinit]
  · have hsc : (((v0.fit (split X y).1.1 (split X y).1.2).score prfs
        (split X y).2.1 (split X y).2.2).2).score_
        = ((v0.fit (split X y).1.1 (split X y).1.2)).estimator.score
            (split X y).2.1 (split X y).2.2 := rfl
    rw [hsc, fit_estimator, hest]
  · unfold postag
    rw [hpinit]
    dsimp only
    rw [hfit]

def estW : Estimator :=
  { predict := fun _ => ["a"], score := fun _ _ => 1, classes_ := ["a"] }

def prfsW : PRFS :=
  fun _ _ => { precision := [1], recall_ := [1], f1 := [1], support := [3] }

def splitW : Mat → List String → (Mat × List String) × (Mat × List String) :=
  fun X y => ((X, y), (X, y))

def matW : Mat := [[0]]

def crInitW : ClassificationReport :=
  (classificationReportInit estW Option.none PyVal.none).toOption.getD
    { estimator := estW, classes := Option.none, support := PyVal.none,
      displayed_scores := [], classes_ := [], support_score_ := [],
      scores_ := [], score_ := 0, drawCalls := 0 }

def postagInitW : PosTagVisualizer :=
  (posTagInit "penn_treebank" false false).toOption.getD plainViz

def corpusW : Corpus := [[[("tok", "NN")]]]

def postagFitW : PosTagVisualizer :=
  (postagInitW.fit corpusW Option.none).toOption.getD plainViz

theorem quick_methods_return_witness :
    classification_report estW matW ["a"] splitW prfsW Option.none PyVal.none
      = Except.ok (((crInitW.fit (splitW matW ["a"]).1.1
          (splitW matW ["a"]).1.2).score prfsW
          (splitW matW ["a"]).2.1 (splitW matW ["a"]).2.2).2)
    ∧ (((crInitW.fit (splitW matW ["a"]).1.1
          (splitW matW ["a"]).1.2).score prfsW
          (splitW matW ["a"]).2.1 (splitW matW ["a"]).2.2).2).score_
        = estW.score (splitW matW ["a"]).2.1 (splitW matW ["a"]).2.2
    ∧ postag corpusW Option.none "penn_treebank" false false
        = Except.ok postagFitW.ax
    ∧ postagFitW.ax ≠ [] :=
  quick_methods_return estW matW ["a"] splitW prfsW Option.none PyVal.none
    corpusW Option.none "penn_treebank" false false crInitW rfl postagInitW
    postagFitW rfl (by decide)

end Yellowbrick
